import Mathlib

/-!
Verification of the multi-cluster command execution and session-recovery
layer of argocd-manager (src/build/lib/argocd_manager/manager.py).

The embedding models Python string operations (split/strip/lower/substring
containment/replace) on Lean Strings and Lists of Chars; ASCII case folding
matches Python for the ASCII strings involved. Subprocess outcomes are
passed in as explicit parameters, and every embedded operation that issues
external calls additionally returns the list of invocations it made, so that
call-count and frame properties can be stated and proved.

The similarity ratio used by fuzzy matching is difflib.SequenceMatcher.ratio,
modelled exactly (Ratcliff-Obershelp: recursive longest-matching-block
decomposition) as an exact rational; the autojunk heuristic of difflib only
applies to candidate strings of length at least 200 and is not modelled.
-/

namespace ArgoCDMgr

/-- Character class of Python str.strip default whitespace (ASCII range). -/
def isPySpace (c : Char) : Bool :=
  c == ' ' || c == '\t' || c == '\n' || c == '\r' || c == '\x0b' || c == '\x0c'

/-- Python str.lower, ASCII case folding. -/
def pyLower (s : String) : String :=
  (s.toList.map Char.toLower).asString

/-- Python substring containment: needle in haystack. -/
def pyIn (needle haystack : String) : Bool :=
  decide (needle.toList <:+: haystack.toList)

/-- Python str.strip(): drop leading and trailing whitespace. -/
def pyStrip (s : String) : String :=
  (((s.toList.dropWhile isPySpace).reverse.dropWhile isPySpace).reverse).asString

/-- Python str.startswith, on the double-dash marker and similar literals. -/
def pyStartsWith (s pre : String) : Bool :=
  decide (pre.toList <+: s.toList)

/-- Token accumulator of the whitespace split: cur holds the characters of
the token in progress, reversed. -/
def pySplitAux : List Char → List Char → List String
  | [], cur => if cur.isEmpty then [] else [cur.reverse.asString]
  | c :: cs, cur =>
    if isPySpace c then
      if cur.isEmpty then pySplitAux cs [] else cur.reverse.asString :: pySplitAux cs []
    else pySplitAux cs (c :: cur)

/-- Python str.split() with no argument: split on whitespace runs, dropping empties. -/
def pySplit (s : String) : List String :=
  pySplitAux s.toList []

/-- Python "".join-style interleaving used by str.replace with an empty pattern:
the replacement appears before every character and after the last. -/
def interleaveRepl (repl : String) : List Char → String
  | [] => repl
  | c :: cs => repl ++ c.toString ++ interleaveRepl repl cs

/-- Left-to-right non-overlapping replacement of a non-empty pattern; the
fuel argument (instantiated with the length of the scanned list, which each
step consumes at least one element of) makes the recursion structural. -/
def replaceAux (pat repl : List Char) : ℕ → List Char → List Char
  | _, [] => []
  | 0, l => l
  | fuel + 1, c :: cs =>
    if pat <+: (c :: cs) then
      repl ++ replaceAux pat repl fuel (List.drop (pat.length - 1) cs)
    else c :: replaceAux pat repl fuel cs

/-- Python str.replace(pat, repl): replaces every occurrence left to right;
with an empty pattern the replacement is inserted at every character boundary. -/
def pyReplace (s pat repl : String) : String :=
  if pat = "" then interleaveRepl repl s.toList
  else (replaceAux pat.toList repl.toList s.toList.length s.toList).asString

/-- Python str.rstrip applied with the single character slash. -/
def rstripSlash (s : String) : String :=
  ((s.toList.reverse.dropWhile (· == '/')).reverse).asString

/-! ### CommandTranslator (manager.py, execute_argocd_command lines 152-189) -/

/-- The fixed allow-list of connection flags safe to forward to subcommands. -/
def ALLOWED_GLOBAL_FLAGS : List String :=
  ["--grpc-web", "--insecure", "--auth-token", "--port-forward", "--plaintext"]

/-- The flag-forwarding scan over the tokens after the server URL: only
allow-listed flags are kept, and --auth-token additionally consumes the next
token as its value when that token does not start with a double dash. -/
def forwardFlags : List String → List String
  | [] => []
  | [p] => if p ∈ ALLOWED_GLOBAL_FLAGS then [p] else []
  | p :: v :: rest =>
    if p ∈ ALLOWED_GLOBAL_FLAGS then
      if p = "--auth-token" ∧ ¬ pyStartsWith v "--" then p :: v :: forwardFlags rest
      else p :: forwardFlags (v :: rest)
    else forwardFlags (v :: rest)

/-- Parse of the tokens following the literal token login: the next token, when
it does not start with a double dash, is the server URL; the remaining tokens
go through the flag-forwarding scan. -/
def parseAfterLogin : List String → Option String × List String
  | [] => (none, [])
  | p :: rest =>
    if pyStartsWith p "--" then (none, forwardFlags (p :: rest))
    else (some p, forwardFlags rest)

/-- Scan of the whitespace-split login command for the literal token login. -/
def parseLoginParts : List String → Option String × List String
  | [] => (none, [])
  | p :: rest => if p = "login" then parseAfterLogin rest else parseLoginParts rest

/-- Optional server flag pair appended to the produced argv. -/
def serverArgs : Option String → List String
  | some u => ["--server", u]
  | none => []

/-- The argv assembled by execute_argocd_command before the subprocess call:
controller binary, subcommand arguments, optional server pair, forwarded flags. -/
def execute_argv (login_cmd : String) (argocd_args : List String) : List String :=
  let parsed := parseLoginParts (pySplit login_cmd)
  ["argocd"] ++ argocd_args ++ serverArgs parsed.1 ++ parsed.2

/-! ### Executor outcome handling (manager.py lines 204-216) -/

/-- Result of one guarded subprocess execution. -/
inductive RunOutcome where
  | success (out : String)
  | failure (msg : String)
deriving DecidableEq, Repr

/-- Handling of a subprocess that exited non-zero: the stripped stdout is
returned as success when non-empty; otherwise the stripped stderr (or the
text Unknown error when empty) with the server URL replaced by a placeholder
becomes the CommandExecutionError message. -/
def handleNonzeroExit (server_url : Option String) (stdoutRaw stderrRaw : String) :
    RunOutcome :=
  let stdout := pyStrip stdoutRaw
  let stderr := pyStrip stderrRaw
  if stdout ≠ "" then .success stdout
  else
    let err := if stderr ≠ "" then stderr else "Unknown error"
    .failure (pyReplace err (server_url.getD "") "<server>")

/-! ### Production confirmation gate (manager.py lines 193-202) -/

/-- Python-side confirm_action answer handling: strip and lowercase the
response; an empty response yields the default; otherwise accept on y or yes. -/
def confirmAnswer (default : Bool) (response : String) : Bool :=
  let r := pyLower (pyStrip response)
  if r = "" then default else ["y", "yes"].contains r

/-- Outcome of the production gate placed in front of the subprocess launch. -/
structure GateResult where
  proceed : Bool
  confirmed : List String
  prompted : Bool
  launched : Bool
deriving DecidableEq, Repr

/-- The gate on execute_argocd_command: prompt (default decline) when the
resolved cluster name contains prod case-insensitively and is not yet in the
confirmed set; declining aborts before the controller subprocess is launched;
accepting records the cluster for the rest of the run. -/
def productionGate (confirmed : List String) (cluster_name response : String) :
    GateResult :=
  if pyIn "prod" (pyLower cluster_name) ∧ cluster_name ∉ confirmed then
    if confirmAnswer false response then
      ⟨true, cluster_name :: confirmed, true, true⟩
    else ⟨false, confirmed, true, false⟩
  else ⟨true, confirmed, false, true⟩

/-- Events of a run that can touch the production-confirmed set: an execution
attempt, or a verified login (which records prod clusters as confirmed). -/
inductive SessionStep where
  | execStep (cluster_name response : String)
  | loginVerified (cluster_name : String)

/-- Effect of one session step on the confirmed set. -/
def stepConfirmed (confirmed : List String) : SessionStep → List String
  | .execStep c r => (productionGate confirmed c r).confirmed
  | .loginVerified c => if pyIn "prod" (pyLower c) then c :: confirmed else confirmed

/-- Effect of a sequence of session steps on the confirmed set. -/
def runConfirmed (confirmed : List String) : List SessionStep → List String
  | [] => confirmed
  | s :: rest => runConfirmed (stepConfirmed confirmed s) rest

/-! ### SessionGuard: auth classification and single retry
(manager.py list_projects / list_applications / _get_application_status /
_get_application_diff / sync_application, lines 284-391) -/

/-- Result of one Executor call as seen by the guarded operations. -/
inductive ExecOutcome where
  | ok (out : String)
  | err (msg : String)
deriving DecidableEq, Repr

/-- The fixed set of case-insensitive authentication-failure substrings used
by the guarded operations. -/
def AUTH_PATTERNS : List String :=
  ["unauthenticated", "invalid session", "rpc error: code = unauthenticated",
   "invalid_grant", "invalid refresh token", "oauth2"]

/-- Classification of a CommandExecutionError message as an authentication
failure: some pattern occurs in the lowercased message. -/
def isAuthErrorMsg (msg : String) : Bool :=
  AUTH_PATTERNS.any (fun k => pyIn k (pyLower msg))

/-- Result of a guarded operation: a value, a surfaced failure, or the
(unreachable) fall-through of the two-attempt loop. -/
inductive GuardOutcome where
  | value (out : String)
  | failed (msg : String)
  | exhausted
deriving DecidableEq, Repr

/-- The two-attempt loop shared by the guarded operations: each attempt issues
the Executor call; on a failure that matches an authentication pattern, on the
first attempt only, and only when the login-recovery cycle succeeds, the loop
continues to a second attempt; every other failure is surfaced at once. The
returned list records the attempt indices at which the Executor was invoked. -/
def guardedAttempts (exec : ℕ → ExecOutcome) (login : ℕ → Bool) :
    ℕ → ℕ → GuardOutcome × List ℕ
  | _, 0 => (.exhausted, [])
  | attempt, fuel + 1 =>
    match exec attempt with
    | .ok o => (.value o, [attempt])
    | .err m =>
      if isAuthErrorMsg m ∧ attempt = 0 ∧ login attempt then
        let r := guardedAttempts exec login (attempt + 1) fuel
        (r.1, attempt :: r.2)
      else (.failed m, [attempt])

/-- A guarded operation: the two-attempt loop started at attempt 0 with the
range bound 2 of the source. -/
def runGuarded (exec : ℕ → ExecOutcome) (login : ℕ → Bool) : GuardOutcome × List ℕ :=
  guardedAttempts exec login 0 2

/-! ### Login-recovery cycle (manager.py _handle_oidc_login, lines 222-281) -/

/-- Number of poll attempts of the login-recovery cycle. -/
def POLL_ATTEMPTS : ℕ := 15

/-- Delay in seconds between poll attempts. -/
def POLL_DELAY : ℕ := 2

/-- The poll-loop classifier: keep polling exactly when the failure message
contains, case-sensitively, Unauthenticated, invalid session, or the rpc
error form of Unauthenticated. -/
def pollKeepGoing (err : String) : Bool :=
  pyIn "Unauthenticated" err || pyIn "invalid session" err ||
    pyIn "rpc error: code = Unauthenticated" err

/-- The poll loop: up to the given fuel many lightweight Executor calls; a
success ends the cycle successfully; a failure that keeps going sleeps for
POLL_DELAY seconds and continues; any other failure stops the cycle at once;
exhaustion reports a timeout as failure. Returns the result, the list of poll
attempt indices issued, and the number of sleeps performed. -/
def pollLoop (poll : ℕ → ExecOutcome) : ℕ → ℕ → Bool × List ℕ × ℕ
  | _, 0 => (false, [], 0)
  | attempt, fuel + 1 =>
    match poll attempt with
    | .ok _ => (true, [attempt], 0)
    | .err m =>
      if pollKeepGoing m then
        let r := pollLoop poll (attempt + 1) fuel
        (r.1, attempt :: r.2.1, r.2.2 + 1)
      else (false, [attempt], 0)

/-- The login-recovery cycle: fails when no login command is stored or the
login subprocess cannot be run; otherwise runs the stored login command as its
own subprocess and enters the poll loop with POLL_ATTEMPTS attempts. -/
def handle_oidc_login (login_cmd : Option String) (loginLaunchOk : Bool)
    (poll : ℕ → ExecOutcome) : Bool × List ℕ × ℕ :=
  match login_cmd with
  | none => (false, [], 0)
  | some _ => if loginLaunchOk then pollLoop poll 0 POLL_ATTEMPTS else (false, [], 0)

/-! ### NameResolver (manager.py fuzzy_match lines 27-37, validate_cluster
lines 132-150) with the difflib SequenceMatcher ratio -/

/-- One row of the longest-matching-block dynamic program: entry j of the row
is the length of the common diagonal run ending at the current character of a
and character j of b, restricted to the window blo..bhi. The list sp is the
previous row shifted right by one. -/
def flmRow (ai : Char) (blo bhi : ℕ) : ℕ → List Char → List ℕ → List ℕ
  | _, [], _ => []
  | j, c :: cs, sp =>
    (if blo ≤ j ∧ j < bhi ∧ c = ai then sp.headD 0 + 1 else 0) ::
      flmRow ai blo bhi (j + 1) cs sp.tail

/-- Scan of one row in ascending j, updating the best block on a strictly
longer run (so ties keep the earliest block, as in difflib). -/
def bestScan (i : ℕ) : ℕ → List ℕ → ℕ × ℕ × ℕ → ℕ × ℕ × ℕ
  | _, [], best => best
  | j, k :: ks, best =>
    bestScan i (j + 1) ks (if k > best.2.2 then (i + 1 - k, j + 1 - k, k) else best)

/-- The row loop of find_longest_match over the characters of the a-window. -/
def flmLoop (b : List Char) (blo bhi : ℕ) :
    ℕ → List Char → List ℕ → ℕ × ℕ × ℕ → ℕ × ℕ × ℕ
  | _, [], _, best => best
  | i, c :: cs, prev, best =>
    let row := flmRow c blo bhi 0 b (0 :: prev)
    flmLoop b blo bhi (i + 1) cs row (bestScan i 0 row best)

/-- difflib SequenceMatcher.find_longest_match on the windows alo..ahi of a
and blo..bhi of b, with no junk (no autojunk below length 200): the earliest
longest contiguous matching block, as (start in a, start in b, length). -/
def find_longest_match (a b : List Char) (alo ahi blo bhi : ℕ) : ℕ × ℕ × ℕ :=
  flmLoop b blo bhi alo ((a.drop alo).take (ahi - alo))
    (List.replicate b.length 0) (alo, blo, 0)

/-- Total number of matched characters of get_matching_blocks: recursive
decomposition around the longest matching block. The fuel strictly exceeds
the recursion depth at the top-level call. -/
def matchBlocksSum (a b : List Char) : ℕ → ℕ → ℕ → ℕ → ℕ → ℕ
  | 0, _, _, _, _ => 0
  | fuel + 1, alo, ahi, blo, bhi =>
    let r := find_longest_match a b alo ahi blo bhi
    if r.2.2 = 0 then 0
    else
      r.2.2 + matchBlocksSum a b fuel alo r.1 blo r.2.1 +
        matchBlocksSum a b fuel (r.1 + r.2.2) ahi (r.2.1 + r.2.2) bhi

/-- Number of matching characters between a and b. -/
def matchSum (a b : List Char) : ℕ :=
  matchBlocksSum a b (a.length + b.length + 1) 0 a.length 0 b.length

/-- difflib SequenceMatcher.ratio as an exact rational: 2 M / T with M the
matched character count and T the total length (1 when both are empty). -/
def ratioQ (a b : List Char) : ℚ :=
  if a.length + b.length = 0 then 1
  else (2 * (matchSum a b : ℚ)) / ((a.length : ℚ) + (b.length : ℚ))

/-- The acceptance threshold 0.6 of fuzzy_match, as an exact rational. -/
def FUZZY_THRESHOLD : ℚ := 3 / 5

/-- Similarity of the lowercased query against one lowercased candidate. -/
def fuzzyRatio (query c : String) : ℚ :=
  ratioQ (pyLower query).toList (pyLower c).toList

/-- The accumulator loop of fuzzy_match: a candidate replaces the current best
only when its ratio is strictly greater than the best ratio so far and at
least the threshold. -/
def fuzzyBest (query : String) : List String → Option String × ℚ → Option String × ℚ
  | [], acc => acc
  | c :: cs, acc =>
    let r := fuzzyRatio query c
    if r > acc.2 ∧ r ≥ FUZZY_THRESHOLD then fuzzyBest query cs (some c, r)
    else fuzzyBest query cs acc

/-- fuzzy_match of manager.py: an exact member is returned at once; otherwise
the best candidate with ratio at least the threshold, ties kept
first-encountered; none when no candidate qualifies. -/
def fuzzy_match (query : String) (choices : List String) : Option String :=
  if query ∈ choices then some query
  else (fuzzyBest query choices (none, 0)).1

/-- The case-insensitive lookup map of validate_cluster: a Python dict
comprehension keyed on lowercased names, so of several names sharing a
lowercase form the last one inserted wins. -/
def lowerLookup (names : List String) (lq : String) : Option String :=
  (names.filter (fun k => pyLower k = lq)).getLast?

/-- validate_cluster of manager.py: exact match, then case-insensitive exact
match, then fuzzy match; none models the ConfigurationError raise. -/
def validate_cluster (names : List String) (cluster_name : String) : Option String :=
  if cluster_name ∈ names then some cluster_name
  else
    match lowerLookup names (pyLower cluster_name) with
    | some m => some m
    | none => fuzzy_match cluster_name names

/-! ### RevisionMutator (manager.py set_application_target_revision,
lines 407-521) -/

/-- One source record of an application document, as read by the mutator. -/
structure AppSource where
  repoURL : Option String
  helmRepo : Option String
deriving DecidableEq, Repr

/-- The parts of the fetched application document the mutator reads. -/
structure AppDoc where
  metaNamespace : Option String
  sourcesList : Option (List AppSource)
  sourceSingle : Option AppSource
deriving DecidableEq, Repr

/-- Enumeration of the sources: the sources list when present, else the
single source wrapped in a list, else empty. -/
def enumSources (d : AppDoc) : List AppSource :=
  match d.sourcesList with
  | some l => l
  | none =>
    match d.sourceSingle with
    | some s => [s]
    | none => []

/-- The repository URL of a source: repoURL when present and non-empty,
else the helm repo field. -/
def srcRepoUrl (s : AppSource) : Option String :=
  match s.repoURL with
  | some u => if u = "" then s.helmRepo else some u
  | none => s.helmRepo

/-- Trailing-slash-insensitive match of a source against a repository URL,
requiring a non-empty source URL. -/
def repoMatches (r : String) (s : AppSource) : Bool :=
  match srcRepoUrl s with
  | some u => u ≠ "" ∧ rstripSlash u = rstripSlash r
  | none => false

/-- Resolution of the source index before any prompt: an explicit index wins;
else, when a non-empty repo is given and there are several sources, the first
source whose repository matches. -/
def repoResolve (repo : Option String) (sources : List AppSource)
    (source_index : Option ℕ) : Option ℕ :=
  match source_index with
  | some i => some i
  | none =>
    match repo with
    | some r =>
      if r ≠ "" ∧ sources.length > 1 then sources.findIdx? (repoMatches r) else none
    | none => none

/-- Outcome of the interactive source chooser. -/
inductive ChooseRes where
  | eofSkip
  | userSkip
  | picked (i : ℕ)
deriving DecidableEq, Repr

/-- Python str.isdigit on ASCII digit strings. -/
def isDigits (s : String) : Bool :=
  s ≠ "" && s.toList.all Char.isDigit

/-- Python int() on a digit string (base ten, leading zeros allowed). -/
def digitsVal (l : List Char) : ℕ :=
  l.foldl (fun acc c => acc * 10 + (c.toNat - '0'.toNat)) 0

/-- The chooser loop: an exhausted input stream models EOFError; an empty or
skip answer is an explicit skip; an in-range digit answer picks that index;
anything else re-prompts. -/
def chooserLoop (n : ℕ) : List String → ChooseRes
  | [] => .eofSkip
  | resp :: rest =>
    let ch := pyStrip resp
    if ch = "" ∨ pyLower ch ∈ ["s", "skip", "n", "no"] then .userSkip
    else if isDigits ch ∧ digitsVal ch.toList < n then .picked (digitsVal ch.toList)
    else chooserLoop n rest

/-- Source-index resolution including the interactive chooser: the chooser is
entered exactly when there are several sources and no index was resolved;
none models returning failure on skip or end of input. -/
def resolveSourceIdx (sources : List AppSource) (r0 : Option ℕ)
    (inputs : List String) : Option (Option ℕ) :=
  if sources.length > 1 ∧ r0 = none then
    match chooserLoop sources.length inputs with
    | .picked i => some (some i)
    | _ => none
  else some r0

/-- The primary mutation command: app set with revision, optional repo, and
the 1-based source position when an index was resolved. -/
def buildSetCmd (app_name revision : String) (repo : Option String)
    (resolved : Option ℕ) : List String :=
  ["app", "set", app_name, "--revision", revision] ++
    (match repo with
     | some r => if r = "" then [] else ["--repo", r]
     | none => []) ++
    (match resolved with
     | some i => ["--source-position", toString (i + 1)]
     | none => [])

/-- json.dumps escaping of a string value (the characters that occur in
revision strings; control characters other than the common escapes are not
modelled). -/
def jsonEscapeChar (c : Char) : String :=
  if c = '"' then "\\\""
  else if c = '\\' then "\\\\"
  else if c = '\n' then "\\n"
  else if c = '\t' then "\\t"
  else if c = '\r' then "\\r"
  else c.toString

/-- json.dumps of a string. -/
def jsonStr (s : String) : String :=
  "\"" ++ String.join (s.toList.map jsonEscapeChar) ++ "\""

/-- The index-addressed JSON replace patch body, exactly as json.dumps emits it. -/
def patchBodyIdx (i : ℕ) (revision : String) : String :=
  "[\x7b\"op\": \"replace\", \"path\": \"/spec/sources/" ++ toString i ++
    "/targetRevision\", \"value\": " ++ jsonStr revision ++ "\x7d]"

/-- The merge patch body for the single-source path, exactly as json.dumps
emits it. -/
def patchBodyMerge (revision : String) : String :=
  "\x7b\"spec\": \x7b\"source\": \x7b\"targetRevision\": " ++ jsonStr revision ++
    "\x7d\x7d\x7d"

/-- The namespace the patch targets: metadata.namespace when present and
non-empty, else argocd. -/
def kubeNs (d : AppDoc) : String :=
  match d.metaNamespace with
  | some s => if s = "" then "argocd" else s
  | none => "argocd"

/-- The kubectl patch invocation of the fallback path. -/
def patchCmd (ns app_name revision : String) (resolved : Option ℕ) : List String :=
  match resolved with
  | some i =>
    ["kubectl", "-n", ns, "patch", "applications.argoproj.io", app_name,
     "--type=json", "-p", patchBodyIdx i revision]
  | none =>
    ["kubectl", "-n", ns, "patch", "applications.argoproj.io", app_name,
     "--type", "merge", "-p", patchBodyMerge revision]

/-- The retried patch invocation: the source assigns the element at list
index 3 to the word applications (the comment intends the alternate resource
name, but index 3 holds the kubectl verb patch; the resource name is at
index 4). -/
def retryPatchCmd (cmd : List String) : List String :=
  cmd.set 3 "applications"

/-- One external mutation call issued by the revision mutator. -/
inductive MutCall where
  | primary (argv : List String)
  | patchSub (argv : List String)
deriving DecidableEq, Repr

/-- The mutation stage after source resolution: dry run prints and returns
success with no call; otherwise the primary command runs; on primary failure
the patch fallback runs only when explicitly allowed, and a failed first
patch is retried once with the index-3 assignment of the source. -/
def mutateWithIdx (allow_patch dry_run : Bool) (d : AppDoc)
    (app_name revision : String) (repo : Option String) (resolved : Option ℕ)
    (primaryOk patch1Ok patch2Ok : Bool) : Bool × List MutCall :=
  let cmd := buildSetCmd app_name revision repo resolved
  if dry_run then (true, [])
  else if primaryOk then (true, [.primary cmd])
  else if !allow_patch then (false, [.primary cmd])
  else
    let pc := patchCmd (kubeNs d) app_name revision resolved
    if patch1Ok then (true, [.primary cmd, .patchSub pc])
    else
      let pc2 := retryPatchCmd pc
      if patch2Ok then (true, [.primary cmd, .patchSub pc, .patchSub pc2])
      else (false, [.primary cmd, .patchSub pc, .patchSub pc2])

/-- set_application_target_revision after the initial application fetch: a
missing document fails at once; otherwise the source index is resolved (repo
match, then chooser when needed) and the mutation stage runs. The returned
list records the external mutation calls issued. -/
def set_application_target_revision (allow_patch : Bool)
    (app_status : Option AppDoc) (app_name revision : String)
    (repo : Option String) (source_index : Option ℕ) (dry_run : Bool)
    (inputs : List String) (primaryOk patch1Ok patch2Ok : Bool) :
    Bool × List MutCall :=
  match app_status with
  | none => (false, [])
  | some d =>
    let sources := enumSources d
    let r0 := repoResolve repo sources source_index
    match resolveSourceIdx sources r0 inputs with
    | none => (false, [])
    | some resolved =>
      mutateWithIdx allow_patch dry_run d app_name revision repo resolved
        primaryOk patch1Ok patch2Ok

end ArgoCDMgr

namespace ArgoCDMgr

/-! ### Helper lemmas -/

theorem parseLoginParts_no_login :
    ∀ ps : List String, "login" ∉ ps → parseLoginParts ps = (none, []) := by
  intro ps h
  induction ps with
  | nil => rfl
  | cons p rest ih =>
    simp only [List.mem_cons, not_or] at h
    rw [parseLoginParts, if_neg (Ne.symm h.1), ih h.2]

theorem interleaveRepl_length (r : String) :
    ∀ cs : List Char, (interleaveRepl r cs).length = r.length * (cs.length + 1) + cs.length := by
  intro cs
  induction cs with
  | nil => simp [interleaveRepl]
  | cons c cs ih =>
    simp only [interleaveRepl, String.length_append, ih, List.length_cons]
    have hc : c.toString.length = 1 := rfl
    rw [hc]
    ring

end ArgoCDMgr

namespace ArgoCDMgr

/-- C4 counterexample: a subprocess exiting non-zero with the non-empty,
whitespace-only stdout and a non-empty stderr fails with a
CommandExecutionError instead of returning that stdout as success, so the
claim as stated is false. -/
theorem C4_counterexample :
    handleNonzeroExit (some "https://argo.example.com") " \n" "permission denied" =
      .failure "permission denied" ∧ (" \n" : String) ≠ "" := by
  constructor
  · decide
  · decide

/-- C4 (amended): for every execution whose subprocess exits non-zero, when
the stdout stripped of surrounding whitespace is non-empty the Executor
returns that stripped stdout as a success (not a failure); otherwise it fails
with a CommandExecutionError whose message is the stripped stderr (or the
text Unknown error when that is empty), with the parsed server URL (the empty
string when none was parsed) replaced by the placeholder. -/
theorem C4_nonzero_exit (server_url : Option String) (stdoutRaw stderrRaw : String) :
    (pyStrip stdoutRaw ≠ "" →
      handleNonzeroExit server_url stdoutRaw stderrRaw = .success (pyStrip stdoutRaw)) ∧
    (pyStrip stdoutRaw = "" →
      handleNonzeroExit server_url stdoutRaw stderrRaw =
        .failure (pyReplace
          (if pyStrip stderrRaw ≠ "" then pyStrip stderrRaw else "Unknown error")
          (server_url.getD "") "<server>")) := by
  constructor
  · intro h
    simp [handleNonzeroExit, h]
  · intro h
    simp [handleNonzeroExit, h]

/-- C4 witness: a diff-like non-zero exit with payload on stdout is returned
as success, and an empty stdout surfaces the redacted stderr. -/
theorem C4_nonzero_exit_witness :
    handleNonzeroExit (some "svc") " diff out \n" "x" = .success "diff out" ∧
    handleNonzeroExit (some "svc") "" "error at svc boundary" =
      .failure "error at <server> boundary" := by
  constructor
  · exact ((C4_nonzero_exit (some "svc") " diff out \n" "x").1 (by decide)).trans (by decide)
  · exact ((C4_nonzero_exit (some "svc") "" "error at svc boundary").2 (by decide)).trans
      (by decide)

/-- C10 counterexample: with no server URL, empty stdout, and the stderr text
e followed by a newline, the raised message interleaves the placeholder
through the stripped stderr e, not through the stderr text itself, so the
claim as stated is false. -/
theorem C10_counterexample :
    handleNonzeroExit none "" "e\n" = .failure "<server>e<server>" ∧
    interleaveRepl "<server>" ("e\n").toList = "<server>e<server>\n<server>" ∧
    ("<server>e<server>" : String) ≠ "<server>e<server>\n<server>" := by
  refine ⟨rfl, rfl, by decide⟩

/-- C10 (amended): when no server URL was parsed and the subprocess exits
non-zero with empty stdout, the CommandExecutionError message is the stripped
stderr (or the text Unknown error when that strips to empty) with the
placeholder <server> inserted at every character boundary - before each
character and after the last - the result of replacing the empty string in
the redaction step; in particular the message is never that base text
unchanged. -/
theorem C10_empty_server_redaction (stderrRaw : String) :
    handleNonzeroExit none "" stderrRaw =
      .failure (interleaveRepl "<server>"
        (if pyStrip stderrRaw ≠ "" then pyStrip stderrRaw else "Unknown error").toList) ∧
    handleNonzeroExit none "" stderrRaw ≠
      .failure (if pyStrip stderrRaw ≠ "" then pyStrip stderrRaw else "Unknown error") := by
  have h0 : pyStrip "" = "" := rfl
  have h1 : handleNonzeroExit none "" stderrRaw =
      .failure (interleaveRepl "<server>"
        (if pyStrip stderrRaw ≠ "" then pyStrip stderrRaw else "Unknown error").toList) := by
    simp [handleNonzeroExit, pyReplace, h0]
  refine ⟨h1, ?_⟩
  intro hcontra
  rw [h1] at hcontra
  have hlen := congrArg String.length (by simpa using hcontra :
    interleaveRepl "<server>"
      (if pyStrip stderrRaw ≠ "" then pyStrip stderrRaw else "Unknown error").toList =
    (if pyStrip stderrRaw ≠ "" then pyStrip stderrRaw else "Unknown error"))
  rw [interleaveRepl_length] at hlen
  have hb : (if pyStrip stderrRaw ≠ "" then pyStrip stderrRaw else "Unknown error").length =
      (if pyStrip stderrRaw ≠ "" then pyStrip stderrRaw else "Unknown error").toList.length := rfl
  have hsv : ("<server>" : String).length = 8 := rfl
  rw [hb, hsv] at hlen
  omega

/-- C10 witness: the amended redaction at the concrete stderr e. -/
theorem C10_empty_server_redaction_witness :
    handleNonzeroExit none "" "e" = .failure "<server>e<server>" ∧
    handleNonzeroExit none "" "e" ≠ .failure "e" := by
  have h := C10_empty_server_redaction "e"
  exact ⟨h.1.trans (by decide), fun hc => h.2 (hc.trans (by decide))⟩

/-- C9: for every stored login command whose whitespace-separated tokens do
not contain the literal token login, no server URL and no connection flags
are derived, execution proceeds without any configuration failure, and the
produced argv is exactly the controller binary followed by the subcommand
arguments. -/
theorem C9_no_login_token (login_cmd : String) (argocd_args : List String)
    (h : "login" ∉ pySplit login_cmd) :
    parseLoginParts (pySplit login_cmd) = (none, []) ∧
    execute_argv login_cmd argocd_args = "argocd" :: argocd_args := by
  have hp := parseLoginParts_no_login _ h
  refine ⟨hp, ?_⟩
  unfold execute_argv
  rw [hp]
  simp [serverArgs]

/-- C9 witness: a stored command with no login token yields the bare argv. -/
theorem C9_no_login_token_witness :
    execute_argv "connect svc.example.com --sso" ["app", "list"] =
      ["argocd", "app", "list"] :=
  (C9_no_login_token "connect svc.example.com --sso" ["app", "list"] (by decide)).2

end ArgoCDMgr

namespace ArgoCDMgr

/-- C5: evaluation at the failing input. With the fallback enabled, the
primary command failed and the first patch failed, the retried patch argv
produced by the source has the word applications at list index 3 (clobbering
the kubectl verb patch) while the resource name applications.argoproj.io at
index 4 is unchanged, so no retry against an alternate resource-name spelling
is ever issued; the fallback-disabled case correctly stops after the primary
failure with no further external call. -/
theorem C5_patch_retry_code_bug :
    set_application_target_revision true
        (some ⟨some "argo-ns", some [⟨some "https://r1", none⟩, ⟨some "https://r2", none⟩], none⟩)
        "myapp" "v2" none (some 0) false [] false false false =
      (false,
        [.primary ["app", "set", "myapp", "--revision", "v2", "--source-position", "1"],
         .patchSub ["kubectl", "-n", "argo-ns", "patch", "applications.argoproj.io",
           "myapp", "--type=json", "-p", patchBodyIdx 0 "v2"],
         .patchSub ["kubectl", "-n", "argo-ns", "applications", "applications.argoproj.io",
           "myapp", "--type=json", "-p", patchBodyIdx 0 "v2"]]) ∧
    (patchCmd "argo-ns" "myapp" "v2" (some 0))[3]? = some "patch" ∧
    (retryPatchCmd (patchCmd "argo-ns" "myapp" "v2" (some 0)))[3]? = some "applications" ∧
    (retryPatchCmd (patchCmd "argo-ns" "myapp" "v2" (some 0)))[4]? =
      some "applications.argoproj.io" ∧
    set_application_target_revision false
        (some ⟨some "argo-ns", some [⟨some "https://r1", none⟩, ⟨some "https://r2", none⟩], none⟩)
        "myapp" "v2" none (some 0) false [] false false false =
      (false, [.primary ["app", "set", "myapp", "--revision", "v2", "--source-position", "1"]]) := by
  refine ⟨by decide, by decide, by decide, by decide, by decide⟩

/-- C8: with dry run set, a fetched application document, and a source index
resolved whenever one is needed (no chooser abort), the operation returns
success and the list of external mutation calls is empty: neither the primary
set command nor any patch subprocess is issued. -/
theorem C8_dry_run (allow_patch : Bool) (d : AppDoc) (app_name revision : String)
    (repo : Option String) (source_index : Option ℕ) (inputs : List String)
    (primaryOk patch1Ok patch2Ok : Bool) (idx : Option ℕ)
    (h : resolveSourceIdx (enumSources d)
        (repoResolve repo (enumSources d) source_index) inputs = some idx) :
    set_application_target_revision allow_patch (some d) app_name revision repo
        source_index true inputs primaryOk patch1Ok patch2Ok = (true, []) := by
  have hdef : set_application_target_revision allow_patch (some d) app_name revision
      repo source_index true inputs primaryOk patch1Ok patch2Ok =
      match resolveSourceIdx (enumSources d)
          (repoResolve repo (enumSources d) source_index) inputs with
      | none => (false, [])
      | some resolved =>
        mutateWithIdx allow_patch true d app_name revision repo resolved
          primaryOk patch1Ok patch2Ok := rfl
  rw [hdef, h]
  simp [mutateWithIdx]

/-- C8 witness: a dry run over a single-source document issues no mutation
call and succeeds. -/
theorem C8_dry_run_witness :
    set_application_target_revision true
        (some ⟨some "ns", none, some ⟨some "https://r", none⟩⟩)
        "app1" "v2" none none true [] true true true = (true, []) :=
  C8_dry_run true ⟨some "ns", none, some ⟨some "https://r", none⟩⟩ "app1" "v2"
    none none [] true true true none (by decide)

end ArgoCDMgr

namespace ArgoCDMgr

/-- Case analysis of the production gate. -/
theorem productionGate_cases (S : List String) (c r : String) :
    (pyIn "prod" (pyLower c) = true ∧ c ∉ S →
      (confirmAnswer false r = true → productionGate S c r = ⟨true, c :: S, true, true⟩) ∧
      (confirmAnswer false r = false → productionGate S c r = ⟨false, S, true, false⟩)) ∧
    (¬(pyIn "prod" (pyLower c) = true ∧ c ∉ S) →
      productionGate S c r = ⟨true, S, false, true⟩) := by
  constructor
  · intro h
    constructor
    · intro ha
      unfold productionGate
      rw [if_pos h, if_pos ha]
    · intro ha
      unfold productionGate
      rw [if_pos h, if_neg (by simp [ha])]
  · intro h
    unfold productionGate
    rw [if_neg h]

/-- The production gate never removes entries from the confirmed set. -/
theorem productionGate_confirmed_sub (S : List String) (c r : String) :
    S ⊆ (productionGate S c r).confirmed := by
  unfold productionGate
  split_ifs
  · exact fun x hx => List.mem_cons_of_mem c hx
  · exact fun x hx => hx
  · exact fun x hx => hx

/-- No session step removes entries from the confirmed set. -/
theorem stepConfirmed_sub (S : List String) (st : SessionStep) :
    S ⊆ stepConfirmed S st := by
  cases st with
  | execStep c r => exact productionGate_confirmed_sub S c r
  | loginVerified c =>
    show S ⊆ if pyIn "prod" (pyLower c) = true then c :: S else S
    split_ifs
    · exact fun x hx => List.mem_cons_of_mem c hx
    · exact fun x hx => hx

/-- No sequence of session steps removes entries from the confirmed set. -/
theorem runConfirmed_sub (steps : List SessionStep) :
    ∀ S : List String, S ⊆ runConfirmed S steps := by
  induction steps with
  | nil => exact fun S x hx => hx
  | cons s rest ih =>
    exact fun S => (stepConfirmed_sub S s).trans (ih (stepConfirmed S s))

/-- C6: for every execution, the operator is prompted - with decline as the
default answer, an empty response declining - exactly when the resolved
cluster name contains prod case-insensitively and is not yet in the
production confirmation set; on decline the call aborts without launching the
controller subprocess and the set is unchanged; on accept the cluster name is
added to the set, and for the rest of the run (after any further session
steps) an execution against that cluster never prompts again. -/
theorem C6_production_gate (S : List String) (c response : String) :
    confirmAnswer false "" = false ∧
    ((productionGate S c response).prompted = true ↔
      (pyIn "prod" (pyLower c) = true ∧ c ∉ S)) ∧
    (pyIn "prod" (pyLower c) = true → c ∉ S → confirmAnswer false response = false →
      productionGate S c response = ⟨false, S, true, false⟩) ∧
    (pyIn "prod" (pyLower c) = true → c ∉ S → confirmAnswer false response = true →
      (productionGate S c response).confirmed = c :: S ∧
      ∀ (steps : List SessionStep) (r2 : String),
        (productionGate (runConfirmed (c :: S) steps) c r2).prompted = false) := by
  have hc := productionGate_cases S c response
  refine ⟨by decide, ?_, ?_, ?_⟩
  · by_cases h : pyIn "prod" (pyLower c) = true ∧ c ∉ S
    · cases ha : confirmAnswer false response with
      | true =>
        rw [(hc.1 h).1 ha]
        simpa using h
      | false =>
        rw [(hc.1 h).2 ha]
        simpa using h
    · rw [hc.2 h]
      simpa using h
  · intro h1 h2 ha
    exact (hc.1 ⟨h1, h2⟩).2 ha
  · intro h1 h2 ha
    rw [(hc.1 ⟨h1, h2⟩).1 ha]
    refine ⟨rfl, ?_⟩
    intro steps r2
    have hmem : c ∈ runConfirmed (c :: S) steps :=
      runConfirmed_sub steps (c :: S) (List.mem_cons_self c S)
    rw [(productionGate_cases (runConfirmed (c :: S) steps) c r2).2
      (fun hcontra => hcontra.2 hmem)]

/-- C6 witness: declining the prompt for the production-looking cluster
Prod-East aborts with no subprocess launch and leaves the set unchanged;
accepting adds it, and after further session steps no new prompt occurs. -/
theorem C6_production_gate_witness :
    productionGate [] "Prod-East" "" = ⟨false, [], true, false⟩ ∧
    (productionGate [] "Prod-East" "y").confirmed = ["Prod-East"] ∧
    (productionGate
        (runConfirmed ["Prod-East"]
          [.execStep "staging" "", .loginVerified "prod-west"])
        "Prod-East" "").prompted = false := by
  have h := C6_production_gate [] "Prod-East" ""
  have h2 := C6_production_gate [] "Prod-East" "y"
  have ha := (h2.2.2.2 (by decide) (by decide) (by decide))
  exact ⟨h.2.2.1 (by decide) (by decide) (by decide), ha.1,
    ha.2 [.execStep "staging" "", .loginVerified "prod-west"] ""⟩

end ArgoCDMgr

namespace ArgoCDMgr

/-- Guard loop evaluation: a first-attempt success makes a single call. -/
theorem runGuarded_ok (exec : ℕ → ExecOutcome) (login : ℕ → Bool) (o : String)
    (h0 : exec 0 = .ok o) : runGuarded exec login = (.value o, [0]) := by
  simp [runGuarded, guardedAttempts, h0]

/-- Guard loop evaluation: a first failure with no successful authentication
recovery is surfaced after a single call. -/
theorem runGuarded_err_noretry (exec : ℕ → ExecOutcome) (login : ℕ → Bool)
    (m : String) (h0 : exec 0 = .err m)
    (hc : ¬(isAuthErrorMsg m = true ∧ login 0 = true)) :
    runGuarded exec login = (.failed m, [0]) := by
  rcases not_and_or.mp hc with hna | hnl
  · simp [runGuarded, guardedAttempts, h0, hna]
  · simp [runGuarded, guardedAttempts, h0, hnl]

/-- Guard loop evaluation: an authentication failure with successful recovery
retries once and returns the second success. -/
theorem runGuarded_err_retry_ok (exec : ℕ → ExecOutcome) (login : ℕ → Bool)
    (m o : String) (h0 : exec 0 = .err m)
    (ha : isAuthErrorMsg m = true) (hl : login 0 = true) (h1 : exec 1 = .ok o) :
    runGuarded exec login = (.value o, [0, 1]) := by
  simp [runGuarded, guardedAttempts, h0, h1, ha, hl]

/-- Guard loop evaluation: an authentication failure with successful recovery
retries once, and a second failure is surfaced. -/
theorem runGuarded_err_retry_err (exec : ℕ → ExecOutcome) (login : ℕ → Bool)
    (m m2 : String) (h0 : exec 0 = .err m)
    (ha : isAuthErrorMsg m = true) (hl : login 0 = true) (h1 : exec 1 = .err m2) :
    runGuarded exec login = (.failed m2, [0, 1]) := by
  simp [runGuarded, guardedAttempts, h0, h1, ha, hl]

/-- C1: for every guarded operation, the underlying Executor call is issued
at most twice per logical call; a second attempt happens exactly when the
first attempt fails with a message matching an authentication pattern and the
login-recovery cycle succeeds; a first failure not matching an authentication
pattern is surfaced with zero retries; and a failing retried call is surfaced
without any further retry. -/
theorem C1_guard_retry (exec : ℕ → ExecOutcome) (login : ℕ → Bool) :
    (runGuarded exec login).2.length ≤ 2 ∧
    ((runGuarded exec login).2.length = 2 ↔
      ∃ m, exec 0 = .err m ∧ isAuthErrorMsg m = true ∧ login 0 = true) ∧
    (∀ m, exec 0 = .err m → isAuthErrorMsg m = false →
      runGuarded exec login = (.failed m, [0])) ∧
    (∀ m m2, exec 0 = .err m → isAuthErrorMsg m = true → login 0 = true →
      exec 1 = .err m2 → runGuarded exec login = (.failed m2, [0, 1])) := by
  cases h0 : exec 0 with
  | ok o =>
    rw [runGuarded_ok exec login o h0]
    refine ⟨by simp, ⟨by simp, ?_⟩, ?_, ?_⟩
    · rintro ⟨m, hm, -⟩
      cases hm
    · intro m hm
      cases hm
    · intro m m2 hm
      cases hm
  | err m =>
    by_cases hc : isAuthErrorMsg m = true ∧ login 0 = true
    · have hcalls : (runGuarded exec login).2 = [0, 1] := by
        cases h1 : exec 1 with
        | ok o => rw [runGuarded_err_retry_ok exec login m o h0 hc.1 hc.2 h1]
        | err m2 => rw [runGuarded_err_retry_err exec login m m2 h0 hc.1 hc.2 h1]
      refine ⟨by simp [hcalls], ⟨fun _ => ⟨m, rfl, hc.1, hc.2⟩, fun _ => by simp [hcalls]⟩,
        ?_, ?_⟩
      · intro m' hm' hna
        cases hm'
        simp [hc.1] at hna
      · intro m' m2 hm' ha' hl' h1
        cases hm'
        exact runGuarded_err_retry_err exec login m m2 h0 ha' hl' h1
    · rw [runGuarded_err_noretry exec login m h0 hc]
      refine ⟨by simp, ⟨by simp, ?_⟩, ?_, ?_⟩
      · rintro ⟨m', hm', ha, hl⟩
        cases hm'
        exact absurd ⟨ha, hl⟩ hc
      · intro m' hm' _
        cases hm'
        rfl
      · intro m' m2 hm' ha hl _
        cases hm'
        exact absurd ⟨ha, hl⟩ hc

/-- C1 witness: an authentication failure followed by a successful login
recovery retries exactly once, and the second failure is surfaced unchanged
after two Executor calls. -/
theorem C1_guard_retry_witness :
    runGuarded
        (fun n => if n = 0 then .err "Unauthenticated" else .err "permission denied")
        (fun _ => true) = (.failed "permission denied", [0, 1]) :=
  (C1_guard_retry
      (fun n => if n = 0 then .err "Unauthenticated" else .err "permission denied")
      (fun _ => true)).2.2.2 "Unauthenticated" "permission denied" rfl (by decide)
    rfl rfl

end ArgoCDMgr

namespace ArgoCDMgr

/-- Range-map shift used to describe the poll attempt indices. -/
theorem range_map_shift (a n : ℕ) :
    (List.range (n + 1)).map (fun i => a + i) =
      a :: (List.range n).map (fun i => a + 1 + i) := by
  rw [List.range_succ_eq_map, List.map_cons, List.map_map]
  have h1 : a + 0 = a := by omega
  have h2 : ((fun i => a + i) ∘ Nat.succ) = fun i : ℕ => a + 1 + i := by
    funext i
    simp only [Function.comp_apply, Nat.succ_eq_add_one]
    omega
  rw [h1, h2]

/-- The poll loop issues at most fuel many poll calls. -/
theorem pollLoop_len (poll : ℕ → ExecOutcome) :
    ∀ fuel a, (pollLoop poll a fuel).2.1.length ≤ fuel := by
  intro fuel
  induction fuel with
  | zero => intro a; simp [pollLoop]
  | succ f ih =>
    intro a
    cases h : poll a with
    | ok o => simp [pollLoop, h]
    | err m =>
      by_cases hk : pollKeepGoing m = true
      · have := ih (a + 1)
        simp [pollLoop, h, hk]
        omega
      · simp [pollLoop, h, hk]

/-- When every poll within the fuel fails with a keep-going message, the loop
exhausts the fuel, sleeps once per failure, and reports failure. -/
theorem pollLoop_keepAll (poll : ℕ → ExecOutcome) :
    ∀ fuel a,
      (∀ i, i < fuel → ∃ m, poll (a + i) = .err m ∧ pollKeepGoing m = true) →
      pollLoop poll a fuel = (false, (List.range fuel).map (fun i => a + i), fuel) := by
  intro fuel
  induction fuel with
  | zero => intro a _; simp [pollLoop]
  | succ f ih =>
    intro a h
    obtain ⟨m, hm, hk⟩ := h 0 (Nat.succ_pos f)
    rw [Nat.add_zero] at hm
    have hrec := ih (a + 1) (fun i hi => by
      obtain ⟨m', hm', hk'⟩ := h (i + 1) (Nat.succ_lt_succ hi)
      refine ⟨m', ?_, hk'⟩
      rw [show a + 1 + i = a + (i + 1) from by omega]
      exact hm')
    rw [range_map_shift]
    simp [pollLoop, hm, hk, hrec]

/-- When the first k polls fail with keep-going messages, the outcome of the
k-th poll decides the cycle: a non-matching failure stops it at once with
failure, a success ends it successfully; either way k sleeps were made and
the attempts are exactly 0..k. -/
theorem pollLoop_prefix (poll : ℕ → ExecOutcome) :
    ∀ k fuel a, k < fuel →
      (∀ i, i < k → ∃ m, poll (a + i) = .err m ∧ pollKeepGoing m = true) →
      (∀ m, poll (a + k) = .err m → pollKeepGoing m = false →
        pollLoop poll a fuel = (false, (List.range (k + 1)).map (fun i => a + i), k)) ∧
      (∀ o, poll (a + k) = .ok o →
        pollLoop poll a fuel = (true, (List.range (k + 1)).map (fun i => a + i), k)) := by
  intro k
  induction k with
  | zero =>
    intro fuel a hk _
    obtain ⟨f, rfl⟩ : ∃ f, fuel = f + 1 := ⟨fuel - 1, by omega⟩
    constructor
    · intro m hm hstop
      rw [Nat.add_zero] at hm
      simp [pollLoop, hm, hstop, List.range_succ]
    · intro o ho
      rw [Nat.add_zero] at ho
      simp [pollLoop, ho, List.range_succ]
  | succ k ih =>
    intro fuel a hk hpre
    obtain ⟨f, rfl⟩ : ∃ f, fuel = f + 1 := ⟨fuel - 1, by omega⟩
    obtain ⟨m0, hm0, hk0⟩ := hpre 0 (Nat.succ_pos k)
    rw [Nat.add_zero] at hm0
    have hpre' : ∀ i, i < k →
        ∃ m, poll (a + 1 + i) = .err m ∧ pollKeepGoing m = true := by
      intro i hi
      obtain ⟨m', hm', hk'⟩ := hpre (i + 1) (Nat.succ_lt_succ hi)
      refine ⟨m', ?_, hk'⟩
      rw [show a + 1 + i = a + (i + 1) from by omega]
      exact hm'
    have ihk := ih f (a + 1) (Nat.lt_of_succ_lt_succ hk) hpre'
    have hshift : a + 1 + k = a + (k + 1) := by omega
    constructor
    · intro m hm hstop
      have hm1 : poll (a + 1 + k) = .err m := by rw [hshift]; exact hm
      rw [range_map_shift]
      simp [pollLoop, hm0, hk0, ihk.1 m hm1 hstop]
    · intro o ho
      have ho1 : poll (a + 1 + k) = .ok o := by rw [hshift]; exact ho
      rw [range_map_shift]
      simp [pollLoop, hm0, hk0, ihk.2 o ho1]

/-- Mapping by adding zero is the identity on the attempt indices. -/
theorem range_map_zero_add (n : ℕ) :
    (List.range n).map (fun i => 0 + i) = List.range n := by
  have h : (fun i => 0 + i) = fun i : ℕ => i := funext fun i => by omega
  rw [h]
  exact List.map_id (List.range n)

/-- C2 (amended): the login-recovery cycle, after running the stored login
command as its own subprocess, polls with a lightweight short-timeout
Executor call up to 15 attempts separated by a 2-second delay; it keeps
polling exactly when the poll failure message contains, case-sensitively,
one of the substrings Unauthenticated, invalid session, or
rpc error: code = Unauthenticated (not the case-insensitive five-pattern
authentication set used by the guarded operations); it stops early reporting
a non-recoverable failure on any other failure, and reports an
authentication-timeout failure after all 15 attempts fail. -/
theorem C2_login_recovery_poll (login_cmd : String) (poll : ℕ → ExecOutcome) :
    POLL_ATTEMPTS = 15 ∧ POLL_DELAY = 2 ∧
    (∀ launchOk,
      (handle_oidc_login (some login_cmd) launchOk poll).2.1.length ≤ POLL_ATTEMPTS) ∧
    ((∀ i, i < POLL_ATTEMPTS → ∃ m, poll i = .err m ∧ pollKeepGoing m = true) →
      handle_oidc_login (some login_cmd) true poll =
        (false, List.range POLL_ATTEMPTS, POLL_ATTEMPTS)) ∧
    (∀ k, k < POLL_ATTEMPTS →
      (∀ i, i < k → ∃ m, poll i = .err m ∧ pollKeepGoing m = true) →
      (∀ m, poll k = .err m → pollKeepGoing m = false →
        handle_oidc_login (some login_cmd) true poll =
          (false, List.range (k + 1), k)) ∧
      (∀ o, poll k = .ok o →
        handle_oidc_login (some login_cmd) true poll =
          (true, List.range (k + 1), k))) := by
  have hdef : ∀ lk, handle_oidc_login (some login_cmd) lk poll =
      if lk then pollLoop poll 0 POLL_ATTEMPTS else (false, [], 0) := by
    intro lk
    cases lk <;> rfl
  refine ⟨rfl, rfl, ?_, ?_, ?_⟩
  · intro launchOk
    rw [hdef]
    cases launchOk with
    | false => simp
    | true => simpa using pollLoop_len poll POLL_ATTEMPTS 0
  · intro h
    rw [hdef, if_pos rfl, pollLoop_keepAll poll POLL_ATTEMPTS 0
      (fun i hi => by simpa using h i hi), range_map_zero_add]
  · intro k hk hpre
    have hp := pollLoop_prefix poll k POLL_ATTEMPTS 0 hk
      (fun i hi => by simpa using hpre i hi)
    constructor
    · intro m hm hstop
      rw [hdef, if_pos rfl, hp.1 m (by simpa using hm) hstop, range_map_zero_add]
    · intro o ho
      rw [hdef, if_pos rfl, hp.2 o (by simpa using ho), range_map_zero_add]

/-- C2 witness: two keep-going authentication failures followed by a success
end the cycle successfully on the third poll with two sleeps. -/
theorem C2_login_recovery_poll_witness :
    handle_oidc_login (some "argocd login svc.example.com --sso") true
      (fun n => if n < 2 then .err "Unauthenticated: token invalid" else .ok "[]") =
      (true, [0, 1, 2], 2) := by
  have hpre : ∀ i, i < 2 →
      ∃ m, (fun n => if n < 2 then ExecOutcome.err "Unauthenticated: token invalid"
              else ExecOutcome.ok "[]") i = .err m ∧ pollKeepGoing m = true := by
    intro i hi
    refine ⟨"Unauthenticated: token invalid", ?_, by decide⟩
    simp [hi]
  have h := ((C2_login_recovery_poll "argocd login svc.example.com --sso"
      (fun n => if n < 2 then .err "Unauthenticated: token invalid" else .ok "[]")
      ).2.2.2.2 2 (by decide) hpre).2 "[]" (by decide)
  exact h.trans (by decide)

/-- C2 counterexample: the lowercase failure message unauthenticated matches
the case-insensitive authentication set the claim names, yet the poll loop
stops early after a single poll attempt instead of continuing to poll. -/
theorem C2_counterexample :
    isAuthErrorMsg "unauthenticated" = true ∧
    pollKeepGoing "unauthenticated" = false ∧
    handle_oidc_login (some "argocd login svc --sso") true
      (fun _ => .err "unauthenticated") = (false, [0], 0) := by
  refine ⟨by decide, by decide, by decide⟩

end ArgoCDMgr

namespace ArgoCDMgr

/-- One-step unfolding of the flag-forwarding scan on two or more tokens. -/
theorem forwardFlags_cons_cases (x w : String) (rest : List String) :
    forwardFlags (x :: w :: rest) =
      if x ∈ ALLOWED_GLOBAL_FLAGS then
        if x = "--auth-token" ∧ ¬ pyStartsWith w "--" = true then
          x :: w :: forwardFlags rest
        else x :: forwardFlags (w :: rest)
      else forwardFlags (w :: rest) := rfl

/-- Every token of the forwarded flags that starts with a double dash belongs
to the allow-list. -/
theorem forwardFlags_allowlist :
    ∀ ps : List String, ∀ t ∈ forwardFlags ps, pyStartsWith t "--" = true →
      t ∈ ALLOWED_GLOBAL_FLAGS
  | [] => by
    intro t ht _
    simp [forwardFlags] at ht
  | [p] => by
    intro t ht _
    by_cases h : p ∈ ALLOWED_GLOBAL_FLAGS
    · simp only [forwardFlags, if_pos h, List.mem_singleton] at ht
      exact ht ▸ h
    · simp only [forwardFlags, if_neg h] at ht
      simp at ht
  | p :: v :: rest => by
    intro t ht hst
    rw [forwardFlags_cons_cases] at ht
    split_ifs at ht with h1 h2
    · rcases List.mem_cons.mp ht with rfl | ht2
      · exact h1
      rcases List.mem_cons.mp ht2 with rfl | ht3
      · exact absurd hst h2.2
      · exact forwardFlags_allowlist rest t ht3 hst
    · rcases List.mem_cons.mp ht with rfl | ht2
      · exact h1
      · exact forwardFlags_allowlist (v :: rest) t ht2 hst
    · exact forwardFlags_allowlist (v :: rest) t ht hst

/-- Whenever the token --auth-token is followed by a non-flag value anywhere
in the scanned tokens, the pair appears contiguously in the forwarded flags. -/
theorem authToken_adjacent :
    ∀ (l₁ : List String) (v : String) (l₂ : List String),
      ¬ pyStartsWith v "--" = true →
      ["--auth-token", v] <:+: forwardFlags (l₁ ++ "--auth-token" :: v :: l₂)
  | [], v, l₂, hv => by
    rw [List.nil_append, forwardFlags_cons_cases,
      if_pos (show ("--auth-token" : String) ∈ ALLOWED_GLOBAL_FLAGS by decide),
      if_pos ⟨rfl, hv⟩]
    exact ⟨[], forwardFlags l₂, rfl⟩
  | [x], v, l₂, hv => by
    rw [List.cons_append, List.nil_append, forwardFlags_cons_cases]
    have hbase := authToken_adjacent [] v l₂ hv
    rw [List.nil_append] at hbase
    have hno : ¬(x = "--auth-token" ∧ ¬ pyStartsWith "--auth-token" "--" = true) :=
      fun hh => hh.2 (by decide)
    by_cases h1 : x ∈ ALLOWED_GLOBAL_FLAGS
    · rw [if_pos h1, if_neg hno]
      exact List.infix_cons hbase
    · rw [if_neg h1]
      exact hbase
  | x :: y :: l₁', v, l₂, hv => by
    rw [List.cons_append, List.cons_append, forwardFlags_cons_cases]
    have ih1 := authToken_adjacent (y :: l₁') v l₂ hv
    have ih2 := authToken_adjacent l₁' v l₂ hv
    rw [List.cons_append] at ih1
    by_cases h1 : x ∈ ALLOWED_GLOBAL_FLAGS
    · by_cases h2 : x = "--auth-token" ∧ ¬ pyStartsWith y "--" = true
      · rw [if_pos h1, if_pos h2]
        exact List.infix_cons (List.infix_cons ih2)
      · rw [if_pos h1, if_neg h2]
        exact List.infix_cons ih1
    · rw [if_neg h1]
      exact ih1

/-- The forwarded-flag component of the parse is always an image of the
flag-forwarding scan. -/
theorem parseLoginParts_flags :
    ∀ ps : List String, ∃ qs : List String, (parseLoginParts ps).2 = forwardFlags qs
  | [] => ⟨[], rfl⟩
  | p :: rest => by
    by_cases h : p = "login"
    · rw [parseLoginParts, if_pos h]
      cases rest with
      | nil => exact ⟨[], rfl⟩
      | cons q rest' =>
        by_cases hq : pyStartsWith q "--" = true
        · exact ⟨q :: rest', by rw [parseAfterLogin, if_pos hq]⟩
        · exact ⟨rest', by rw [parseAfterLogin, if_neg hq]⟩
    · rw [parseLoginParts, if_neg h]
      exact parseLoginParts_flags rest

/-- A parsed server URL never starts with a double dash. -/
theorem parseLoginParts_server :
    ∀ (ps : List String) (u : String),
      (parseLoginParts ps).1 = some u → pyStartsWith u "--" = false
  | [] => by
    intro u h
    simp [parseLoginParts] at h
  | p :: rest => by
    intro u h
    by_cases hp : p = "login"
    · rw [parseLoginParts, if_pos hp] at h
      cases rest with
      | nil => simp [parseAfterLogin] at h
      | cons q rest' =>
        by_cases hq : pyStartsWith q "--" = true
        · rw [parseAfterLogin, if_pos hq] at h
          simp at h
        · rw [parseAfterLogin, if_neg hq] at h
          simp only [Option.some.injEq] at h
          rw [← h]
          exact Bool.eq_false_iff.mpr hq
    · rw [parseLoginParts, if_neg hp] at h
      exact parseLoginParts_server rest u h

/-- C3: the produced argv is the controller binary, then the subcommand
arguments, then the server pair when a server URL was parsed, then the
forwarded flags, in that order; the forwarded flags contain only allow-listed
flags, so no other flag of the login command ever appears in the produced
argv; and an --auth-token followed by a non-flag token always has that token
placed immediately after it in the scanned output. -/
theorem C3_translator (login_cmd : String) (argocd_args : List String) :
    execute_argv login_cmd argocd_args =
      ["argocd"] ++ argocd_args ++
        serverArgs (parseLoginParts (pySplit login_cmd)).1 ++
        (parseLoginParts (pySplit login_cmd)).2 ∧
    (∀ t ∈ (parseLoginParts (pySplit login_cmd)).2, pyStartsWith t "--" = true →
      t ∈ ALLOWED_GLOBAL_FLAGS) ∧
    (∀ t, pyStartsWith t "--" = true → t ∉ ALLOWED_GLOBAL_FLAGS → t ≠ "--server" →
      t ∉ argocd_args → t ∉ execute_argv login_cmd argocd_args) ∧
    (∀ (l₁ : List String) (v : String) (l₂ : List String),
      ¬ pyStartsWith v "--" = true →
      ["--auth-token", v] <:+: forwardFlags (l₁ ++ "--auth-token" :: v :: l₂)) := by
  refine ⟨rfl, ?_, ?_, fun l₁ v l₂ hv => authToken_adjacent l₁ v l₂ hv⟩
  · intro t ht hst
    obtain ⟨qs, hqs⟩ := parseLoginParts_flags (pySplit login_cmd)
    rw [hqs] at ht
    exact forwardFlags_allowlist qs t ht hst
  · intro t hst hna hns hnargs hmem
    have hsplit : t ∈ (["argocd"] : List String) ∨ t ∈ argocd_args ∨
        t ∈ serverArgs (parseLoginParts (pySplit login_cmd)).1 ∨
        t ∈ (parseLoginParts (pySplit login_cmd)).2 := by
      simpa [execute_argv, List.mem_append, or_assoc] using hmem
    rcases hsplit with h | h | h | h
    · rw [List.mem_singleton] at h
      rw [h] at hst
      exact absurd hst (by decide)
    · exact hnargs h
    · cases hsv : (parseLoginParts (pySplit login_cmd)).1 with
      | none =>
        rw [hsv] at h
        simp [serverArgs] at h
      | some u =>
        rw [hsv] at h
        rcases List.mem_cons.mp h with rfl | h2
        · exact hns rfl
        · rw [List.mem_singleton] at h2
          have := parseLoginParts_server (pySplit login_cmd) u hsv
          rw [← h2] at this
          rw [this] at hst
          cases hst
    · obtain ⟨qs, hqs⟩ := parseLoginParts_flags (pySplit login_cmd)
      rw [hqs] at h
      exact hna (forwardFlags_allowlist qs t h hst)

/-- C3 witness: the end-to-end scenario of the specification - the single
sign-on flag is dropped, the server pair and the allow-listed flag are
forwarded in order - together with the auth-token adjacency at a concrete
token list. -/
theorem C3_translator_witness :
    execute_argv "login svc.example.com --sso --grpc-web" ["app", "list"] =
      ["argocd", "app", "list", "--server", "svc.example.com", "--grpc-web"] ∧
    "--sso" ∉ execute_argv "login svc.example.com --sso --grpc-web" ["app", "list"] ∧
    ["--auth-token", "TOK"] <:+: forwardFlags ["--sso", "--auth-token", "TOK"] := by
  refine ⟨by decide, ?_, ?_⟩
  · exact (C3_translator "login svc.example.com --sso --grpc-web" ["app", "list"]).2.2.1
      "--sso" (by decide) (by decide) (by decide) (by decide)
  · exact (C3_translator "login svc.example.com --sso --grpc-web" ["app", "list"]).2.2.2
      ["--sso"] "TOK" [] (by decide)

end ArgoCDMgr

namespace ArgoCDMgr

/-- Characterization of the fuzzy-match accumulator loop: either no candidate
beats the accumulator while clearing the threshold and the accumulator is
returned unchanged, or the result is the first candidate attaining the
maximal accepted ratio - every earlier candidate has a strictly smaller
ratio, every later one a ratio at most as large or below the threshold. -/
theorem fuzzyBest_main (q : String) :
    ∀ (cs : List String) (acc : Option String × ℚ),
      (fuzzyBest q cs acc = acc ∧
        ∀ p ∈ cs, fuzzyRatio q p ≤ acc.2 ∨ fuzzyRatio q p < FUZZY_THRESHOLD) ∨
      (∃ pre c post, cs = pre ++ c :: post ∧
        acc.2 < fuzzyRatio q c ∧ FUZZY_THRESHOLD ≤ fuzzyRatio q c ∧
        (∀ p ∈ pre, fuzzyRatio q p < fuzzyRatio q c) ∧
        (∀ p ∈ post, fuzzyRatio q p ≤ fuzzyRatio q c ∨
          fuzzyRatio q p < FUZZY_THRESHOLD) ∧
        fuzzyBest q cs acc = (some c, fuzzyRatio q c)) := by
  intro cs
  induction cs with
  | nil =>
    intro acc
    left
    exact ⟨rfl, by simp⟩
  | cons c₀ cs' ih =>
    intro acc
    by_cases hacc : fuzzyRatio q c₀ > acc.2 ∧ fuzzyRatio q c₀ ≥ FUZZY_THRESHOLD
    · have hstep : fuzzyBest q (c₀ :: cs') acc =
          fuzzyBest q cs' (some c₀, fuzzyRatio q c₀) := by
        simp only [fuzzyBest]
        rw [if_pos hacc]
      rcases ih (some c₀, fuzzyRatio q c₀) with ⟨heq, hall⟩ |
        ⟨pre, c, post, hsplit, hlt, hth, hpre, hpost, heq⟩
      · right
        refine ⟨[], c₀, cs', rfl, hacc.1, hacc.2, by simp, ?_, by rw [hstep, heq]⟩
        exact fun p hp => hall p hp
      · right
        refine ⟨c₀ :: pre, c, post, by rw [hsplit, List.cons_append], lt_trans hacc.1 hlt, hth, ?_,
          hpost, by rw [hstep, heq]⟩
        intro p hp
        rcases List.mem_cons.mp hp with rfl | hp2
        · exact hlt
        · exact hpre p hp2
    · have hstep : fuzzyBest q (c₀ :: cs') acc = fuzzyBest q cs' acc := by
        simp only [fuzzyBest]
        rw [if_neg hacc]
      have hn : fuzzyRatio q c₀ ≤ acc.2 ∨ fuzzyRatio q c₀ < FUZZY_THRESHOLD := by
        rcases not_and_or.mp hacc with h | h
        · exact Or.inl (le_of_not_lt h)
        · exact Or.inr (lt_of_not_le h)
      rcases ih acc with ⟨heq, hall⟩ |
        ⟨pre, c, post, hsplit, hlt, hth, hpre, hpost, heq⟩
      · left
        refine ⟨by rw [hstep, heq], ?_⟩
        intro p hp
        rcases List.mem_cons.mp hp with rfl | hp2
        · exact hn
        · exact hall p hp2
      · right
        refine ⟨c₀ :: pre, c, post, by rw [hsplit, List.cons_append], hlt, hth, ?_, hpost,
          by rw [hstep, heq]⟩
        intro p hp
        rcases List.mem_cons.mp hp with rfl | hp2
        · rcases hn with h | h
          · exact lt_of_le_of_lt h hlt
          · exact lt_of_lt_of_le h hth
        · exact hpre p hp2

/-- Outcome of fuzzy_match for a query that is not an exact member: either no
candidate reaches the threshold and the result is none, or the result is the
first candidate of maximal ratio at or above the threshold. -/
theorem fuzzy_match_cases (q : String) (choices : List String) (hq : q ∉ choices) :
    (fuzzy_match q choices = none ∧
      ∀ c ∈ choices, fuzzyRatio q c < FUZZY_THRESHOLD) ∨
    (∃ pre c post, choices = pre ++ c :: post ∧
      FUZZY_THRESHOLD ≤ fuzzyRatio q c ∧
      (∀ p ∈ pre, fuzzyRatio q p < fuzzyRatio q c) ∧
      (∀ p ∈ post, fuzzyRatio q p ≤ fuzzyRatio q c) ∧
      fuzzy_match q choices = some c) := by
  have hfm : fuzzy_match q choices = (fuzzyBest q choices (none, 0)).1 := by
    rw [fuzzy_match, if_neg hq]
  rcases fuzzyBest_main q choices (none, 0) with ⟨heq, hall⟩ |
    ⟨pre, c, post, hsplit, _, hth, hpre, hpost, heq⟩
  · left
    refine ⟨by rw [hfm, heq], ?_⟩
    intro c hc
    rcases hall c hc with h | h
    · exact lt_of_le_of_lt h (by norm_num [FUZZY_THRESHOLD])
    · exact h
  · right
    refine ⟨pre, c, post, hsplit, hth, hpre, ?_, by rw [hfm, heq]⟩
    intro p hp
    rcases hpost p hp with h | h
    · exact h
    · exact le_of_lt (lt_of_lt_of_le h hth)

/-- The last element of a non-empty list all of whose elements are x is x. -/
theorem getLast_all_eq {α : Type _} :
    ∀ (l : List α) (x : α), x ∈ l → (∀ y ∈ l, y = x) → l.getLast? = some x
  | [], x => by
    intro hx _
    cases hx
  | [y], x => by
    intro _ hall
    rw [hall y (by simp)]
    rfl
  | y :: z :: t, x => by
    intro _ hall
    rw [List.getLast?_cons_cons]
    have hz : z = x := hall z (by simp)
    exact getLast_all_eq (z :: t) x (hz ▸ List.mem_cons_self z t)
      (fun w hw => hall w (List.mem_cons_of_mem _ hw))

/-- When exactly one configured name carries a given lowercase form, the
last-wins lowercase lookup returns it. -/
theorem lowerLookup_unique (names : List String) (N q : String)
    (hN : N ∈ names) (hql : pyLower q = pyLower N)
    (huniq : ∀ M ∈ names, pyLower M = pyLower N → M = N) :
    lowerLookup names (pyLower q) = some N := by
  unfold lowerLookup
  apply getLast_all_eq
  · rw [List.mem_filter]
    refine ⟨hN, ?_⟩
    simp [hql]
  · intro y hy
    rw [List.mem_filter] at hy
    have hy2 : pyLower y = pyLower q := by simpa using hy.2
    exact huniq y hy.1 (by rw [hy2, hql])

/-- C7 (amended): resolution tries exact match first, then the
case-insensitive map - which, built last-wins over lowercased names, returns
N for every case-scrambled variant of a configured name N whenever no other
configured name shares its lowercase form, with priority over fuzzy matching;
a fuzzy result is the first candidate of maximal similarity ratio, accepted
only at ratio at least 0.6; and when no exact or case-insensitive match
exists and no candidate reaches ratio 0.6, resolution fails. -/
theorem C7_name_resolution (names : List String) (q : String) :
    (q ∈ names → validate_cluster names q = some q) ∧
    (∀ N, q ∉ names → N ∈ names → pyLower q = pyLower N →
      (∀ M ∈ names, pyLower M = pyLower N → M = N) →
      validate_cluster names q = some N) ∧
    (∀ c, q ∉ names → lowerLookup names (pyLower q) = none →
      validate_cluster names q = some c →
      ∃ pre post, names = pre ++ c :: post ∧
        FUZZY_THRESHOLD ≤ fuzzyRatio q c ∧
        (∀ p ∈ pre, fuzzyRatio q p < fuzzyRatio q c) ∧
        (∀ p ∈ post, fuzzyRatio q p ≤ fuzzyRatio q c)) ∧
    (q ∉ names → lowerLookup names (pyLower q) = none →
      (∀ c ∈ names, fuzzyRatio q c < FUZZY_THRESHOLD) →
      validate_cluster names q = none) := by
  refine ⟨?_, ?_, ?_, ?_⟩
  · intro hq
    rw [validate_cluster, if_pos hq]
  · intro N hq hN hql huniq
    rw [validate_cluster, if_neg hq, lowerLookup_unique names N q hN hql huniq]
  · intro c hq hlk hvc
    have hvdef : validate_cluster names q = fuzzy_match q names := by
      rw [validate_cluster, if_neg hq, hlk]
    rw [hvdef] at hvc
    rcases fuzzy_match_cases q names hq with ⟨hnone, _⟩ |
      ⟨pre, c', post, hsplit, hth, hpre, hpost, hsome⟩
    · rw [hnone] at hvc
      cases hvc
    · rw [hsome] at hvc
      obtain rfl : c' = c := by injection hvc
      exact ⟨pre, post, hsplit, hth, hpre, hpost⟩
  · intro hq hlk hall
    have hvdef : validate_cluster names q = fuzzy_match q names := by
      rw [validate_cluster, if_neg hq, hlk]
    rw [hvdef]
    rcases fuzzy_match_cases q names hq with ⟨hnone, _⟩ |
      ⟨pre, c, post, hsplit, hth, _, _, _⟩
    · exact hnone
    · exfalso
      have hc : c ∈ names := by
        rw [hsplit]
        exact List.mem_append_right _ (List.mem_cons_self _ _)
      exact absurd hth (not_le.mpr (hall c hc))

/-- Evaluation of the fuzzy ratio from the computed match count and lengths. -/
theorem fuzzyRatio_eval (q c : String) (M la lb : ℕ)
    (hm : matchSum (pyLower q).toList (pyLower c).toList = M)
    (hla : (pyLower q).toList.length = la)
    (hlb : (pyLower c).toList.length = lb)
    (hpos : ¬(la + lb = 0)) :
    fuzzyRatio q c = (2 * (M : ℚ)) / ((la : ℚ) + (lb : ℚ)) := by
  unfold fuzzyRatio ratioQ
  rw [hm, hla, hlb, if_neg hpos]

/-- C7 counterexample: the configuration holding both ABC and abc, queried
with the case-scrambled variant aBc of the configured name ABC, resolves to
abc (the last-wins entry of the lowercase map) rather than to ABC, so the
claim as stated is false. -/
theorem C7_counterexample :
    validate_cluster ["ABC", "abc"] "aBc" = some "abc" ∧
    ("abc" : String) ≠ "ABC" ∧
    "ABC" ∈ (["ABC", "abc"] : List String) ∧
    pyLower "aBc" = pyLower "ABC" ∧
    "aBc" ∉ (["ABC", "abc"] : List String) := by
  refine ⟨by decide, by decide, by decide, by decide, by decide⟩

/-- C7 witness: a case-scrambled variant of a lowercase-unique configured
name resolves to that name, and a query similar to no configured name fails. -/
theorem C7_name_resolution_witness :
    validate_cluster ["prod-east", "staging"] "Prod-East" = some "prod-east" ∧
    validate_cluster ["alpha", "beta"] "zzzz" = none := by
  constructor
  · exact (C7_name_resolution ["prod-east", "staging"] "Prod-East").2.1 "prod-east"
      (by decide) (by decide) (by decide) (by decide)
  · refine (C7_name_resolution ["alpha", "beta"] "zzzz").2.2.2 (by decide) (by decide) ?_
    intro c hc
    rcases List.mem_cons.mp hc with rfl | hc2
    · rw [fuzzyRatio_eval "zzzz" "alpha" 0 4 5 (by decide) (by decide) (by decide)
        (by norm_num)]
      norm_num [FUZZY_THRESHOLD]
    · rw [List.mem_singleton] at hc2
      subst hc2
      rw [fuzzyRatio_eval "zzzz" "beta" 0 4 4 (by decide) (by decide) (by decide)
        (by norm_num)]
      norm_num [FUZZY_THRESHOLD]

end ArgoCDMgr
